import Mathlib

/-!
Shallow embedding of `src/pid_controller.py` (class `PID_Controller`) over ℚ.

Python floats are modelled as rational numbers: every arithmetic operation
performed by the controller (addition, subtraction, multiplication, division,
`abs`, `min`, `max`, `math.copysign`) is exact on the concrete values the
development evaluates, and ℚ has no NaN or infinity, matching the finite-real
reading of the specification.  The IEEE negative zero is identified with 0
(so `math.copysign(1, x)` at `x = 0` yields `1`, the value Python produces
for positive zero).

The Python `compute` method reads the wall clock via `time.time()`; the
embedding makes that reading an explicit argument `now`, the only external
input of a step.  Everything else is translated statement by statement from
the source.
-/

/-- Embedding of `math.copysign(1, q)` for a rational `q`, identifying the
IEEE negative zero with `0` (Python returns `1.0` at positive zero). -/
def pysign (q : ℚ) : ℚ := if q < 0 then -1 else 1

/-- Embedding of `math.copysign(x, y)` for rationals, identifying the IEEE
negative zero with `0`: the magnitude of `x` carrying the sign of `y`. -/
def pycopysign (x y : ℚ) : ℚ := if y < 0 then -|x| else |x|

/-- The state of a `PID_Controller` instance: every attribute assigned in
`__init__` (configuration, derived limits, and mutable cross-call state). -/
structure PIDState where
  kp : ℚ
  ki : ℚ
  kd : ℚ
  minOutput : ℚ
  maxOutput : ℚ
  tau : ℚ
  integratorResetDelta : ℚ
  kAw : ℚ
  maxDerivative : ℚ
  minDerivative : ℚ
  maxOutRate : ℚ
  lastError : ℚ
  lastTime : ℚ
  integral : ℚ
  lastDerivative : ℚ
  lastValue : ℚ
  lastTarget : ℚ
  lastOutput : ℚ
  clamped : Bool
  deriving Repr, DecidableEq

/-- Embedding of `PID_Controller.__init__`.  The constructor body performs no
validation and has no failure path: it only stores the parameters, computes
the derived limits (`_k_aw = 0.90`, `_max_derivative = max_output * 0.2`,
`_min_derivative = min_output * 0.2`, `_max_out_rate = (max_output -
min_output) * 1.0`) and zero-initialises the mutable state.  `t0` is the
`time.time()` reading taken at construction for `_last_time`. -/
def mkPID (kp ki kd minOutput maxOutput tau integratorResetDelta t0 : ℚ) :
    PIDState where
  kp := kp
  ki := ki
  kd := kd
  minOutput := minOutput
  maxOutput := maxOutput
  tau := tau
  integratorResetDelta := integratorResetDelta
  kAw := 9 / 10
  maxDerivative := maxOutput * (2 / 10)
  minDerivative := minOutput * (2 / 10)
  maxOutRate := (maxOutput - minOutput) * 1
  lastError := 0
  lastTime := t0
  integral := 0
  lastDerivative := 0
  lastValue := 0
  lastTarget := 0
  lastOutput := 0
  clamped := false

/-- Models the Python expression `PID_Controller(...)` as a fallible call:
since the constructor body raises nothing, the call always returns the
constructed state.  The error type records what an `InvalidConfiguration`
exception would carry if one existed. -/
def mkPIDChecked (kp ki kd minOutput maxOutput tau integratorResetDelta t0 : ℚ) :
    Except String PIDState :=
  Except.ok (mkPID kp ki kd minOutput maxOutput tau integratorResetDelta t0)

/-- Embedding of `PID_Controller._apply_clamping`: clamp `output` to
`[min_output, max_output]` and compute the new `_clamped` flag, which is true
exactly when `math.copysign(1, clamped_output) == math.copysign(1, error)`
and `clamped_output` equals one of the two output limits. -/
def applyClamping (s : PIDState) (output error : ℚ) : ℚ × Bool :=
  let clampedOutput := max s.minOutput (min s.maxOutput output)
  let flag := decide (pysign clampedOutput = pysign error) &&
    (decide (clampedOutput = s.minOutput) || decide (clampedOutput = s.maxOutput))
  (clampedOutput, flag)

/-- Embedding of `PID_Controller._filter_derivative`:
`alpha = tau / (tau + dt)` and
`filtered = alpha * self._last_derivative + (1 - alpha) * raw_derivative`. -/
def filterDerivative (s : PIDState) (rawDerivative dt : ℚ) : ℚ :=
  let alpha := s.tau / (s.tau + dt)
  alpha * s.lastDerivative + (1 - alpha) * rawDerivative

/-- Every intermediate value produced by one execution of
`PID_Controller.compute`, in the order the source computes them, together
with the successor state. -/
structure StepTrace where
  dt : ℚ
  error : ℚ
  pTerm : ℚ
  integralAfterReset : ℚ
  integralAfterAccum : ℚ
  iTerm : ℚ
  rawDerivative : ℚ
  filteredDerivative : ℚ
  clampedDerivative : ℚ
  dTerm : ℚ
  rawOutput : ℚ
  clampedOutput : ℚ
  clampedFlag : Bool
  integralFinal : ℚ
  output : ℚ
  state' : PIDState
  deriving Repr, DecidableEq

/-- Embedding of the body of `PID_Controller.compute` after the time step
`dt` has been determined, transcribed statement by statement:
proportional term; integral halving when `abs(last_target - target_value)`
exceeds the reset delta; accumulation of `error * dt` gated on the previous
`_clamped` flag; derivative on measurement, first-order filtering and
clamping to the derivative limits; output clamping via `_apply_clamping`;
back-calculation when the new `_clamped` flag is set; slew-rate limiting;
and the state commit (which stores the RAW derivative in
`_last_derivative` and sets `_last_time` to `now`). -/
def pidTraceDt (s : PIDState) (currentValue targetValue dt now : ℚ) : StepTrace :=
  let error := targetValue - currentValue
  let pTerm := s.kp * error
  let integralAfterReset :=
    if |s.lastTarget - targetValue| > s.integratorResetDelta then
      s.integral * (1 / 2)
    else s.integral
  let integralAfterAccum :=
    if s.clamped = false then integralAfterReset + error * dt
    else integralAfterReset
  let iTerm := s.ki * integralAfterAccum
  let rawDerivative := -(currentValue - s.lastValue) / dt
  let filteredDerivative := filterDerivative s rawDerivative dt
  let clampedDerivative := max s.minDerivative (min filteredDerivative s.maxDerivative)
  let dTerm := s.kd * clampedDerivative
  let rawOutput := pTerm + iTerm + dTerm
  let clamping := applyClamping s rawOutput error
  let clampedOutput := clamping.1
  let clampedFlag := clamping.2
  let integralFinal :=
    if clampedFlag then integralAfterAccum - (rawOutput - clampedOutput) * s.kAw * dt
    else integralAfterAccum
  let deltaOutput := clampedOutput - s.lastOutput
  let output :=
    if |deltaOutput| / dt > s.maxOutRate then
      s.lastOutput + pycopysign (s.maxOutRate * dt) deltaOutput
    else clampedOutput
  { dt := dt
    error := error
    pTerm := pTerm
    integralAfterReset := integralAfterReset
    integralAfterAccum := integralAfterAccum
    iTerm := iTerm
    rawDerivative := rawDerivative
    filteredDerivative := filteredDerivative
    clampedDerivative := clampedDerivative
    dTerm := dTerm
    rawOutput := rawOutput
    clampedOutput := clampedOutput
    clampedFlag := clampedFlag
    integralFinal := integralFinal
    output := output
    state' :=
      { s with
        lastError := error
        lastTime := now
        integral := integralFinal
        lastDerivative := rawDerivative
        lastValue := currentValue
        lastTarget := targetValue
        lastOutput := output
        clamped := clampedFlag } }

/-- Embedding of one call `compute(current_value, target_value)` made at
wall-clock time `now`: `dt = now - self._last_time`, replaced by `1e-6`
whenever `dt <= 0`, followed by the body `pidTraceDt`. -/
def pidStep (s : PIDState) (currentValue targetValue now : ℚ) : StepTrace :=
  let dtRaw := now - s.lastTime
  let dt := if dtRaw ≤ 0 then 1 / 1000000 else dtRaw
  pidTraceDt s currentValue targetValue dt now

/-- The outputs returned by a sequence of `compute` calls, each triple giving
the measured value, the target, and the wall-clock time of the call. -/
def runPID (s : PIDState) : List (ℚ × ℚ × ℚ) → List ℚ
  | [] => []
  | (cv, tv, now) :: rest =>
    (pidStep s cv tv now).output :: runPID (pidStep s cv tv now).state' rest

/-- Modelled from the spec: the exponential-smoothing filter whose carried
state is the previous FILTERED derivative, `alpha = tau / (tau + dt)`,
`filtered = alpha * previous_filtered_derivative + (1 - alpha) *
raw_derivative`.  Used only to compare the specified filter against the
implemented one. -/
def specFilter (tau prevFiltered rawDerivative dt : ℚ) : ℚ :=
  (tau / (tau + dt)) * prevFiltered + (1 - tau / (tau + dt)) * rawDerivative

/-!
Projection equations for the trace, all definitional, followed by the
lemmas about clamping, slew-rate limiting and output bounds that the
claim theorems share.
-/

/-- One `compute` call is the dt-substituted body at the effective time step. -/
lemma pidStep_def (s : PIDState) (cv tv now : ℚ) :
    pidStep s cv tv now =
      pidTraceDt s cv tv (if now - s.lastTime ≤ 0 then 1 / 1000000 else now - s.lastTime) now :=
  rfl

/-- The effective time step of a call is always strictly positive. -/
lemma effDt_pos (s : PIDState) (now : ℚ) :
    0 < if now - s.lastTime ≤ 0 then (1 : ℚ) / 1000000 else now - s.lastTime := by
  split
  · norm_num
  · next h => exact sub_pos.mpr (by linarith [not_le.mp h])

lemma pidTraceDt_dt_eq (s : PIDState) (cv tv dt now : ℚ) :
    (pidTraceDt s cv tv dt now).dt = dt := rfl

lemma pidTraceDt_error_eq (s : PIDState) (cv tv dt now : ℚ) :
    (pidTraceDt s cv tv dt now).error = tv - cv := rfl

lemma pidTraceDt_clampedOutput_eq (s : PIDState) (cv tv dt now : ℚ) :
    (pidTraceDt s cv tv dt now).clampedOutput =
      max s.minOutput (min s.maxOutput (pidTraceDt s cv tv dt now).rawOutput) := rfl

lemma pidTraceDt_clampedFlag_eq (s : PIDState) (cv tv dt now : ℚ) :
    (pidTraceDt s cv tv dt now).clampedFlag =
      (applyClamping s (pidTraceDt s cv tv dt now).rawOutput
        (pidTraceDt s cv tv dt now).error).2 := rfl

lemma pidTraceDt_output_eq (s : PIDState) (cv tv dt now : ℚ) :
    (pidTraceDt s cv tv dt now).output =
      if |(pidTraceDt s cv tv dt now).clampedOutput - s.lastOutput| / dt > s.maxOutRate then
        s.lastOutput +
          pycopysign (s.maxOutRate * dt) ((pidTraceDt s cv tv dt now).clampedOutput - s.lastOutput)
      else (pidTraceDt s cv tv dt now).clampedOutput := rfl

lemma pidTraceDt_newLastOutput (s : PIDState) (cv tv dt now : ℚ) :
    (pidTraceDt s cv tv dt now).state'.lastOutput = (pidTraceDt s cv tv dt now).output := rfl

lemma pidTraceDt_newMinOutput (s : PIDState) (cv tv dt now : ℚ) :
    (pidTraceDt s cv tv dt now).state'.minOutput = s.minOutput := rfl

lemma pidTraceDt_newMaxOutput (s : PIDState) (cv tv dt now : ℚ) :
    (pidTraceDt s cv tv dt now).state'.maxOutput = s.maxOutput := rfl

lemma pidTraceDt_newMaxOutRate (s : PIDState) (cv tv dt now : ℚ) :
    (pidTraceDt s cv tv dt now).state'.maxOutRate = s.maxOutRate := rfl

/-- The new `_clamped` flag produced by `_apply_clamping` is true exactly when
the sign of the clamped output matches the sign of the error and the clamped
output sits at one of the two output limits. -/
lemma applyClamping_flag_iff (s : PIDState) (o e : ℚ) :
    (applyClamping s o e).2 = true ↔
      (pysign (applyClamping s o e).1 = pysign e ∧
        ((applyClamping s o e).1 = s.minOutput ∨ (applyClamping s o e).1 = s.maxOutput)) := by
  simp [applyClamping]

/-- When the slew branch fires, the returned output is the rate-limited
replacement value. -/
lemma pidTraceDt_output_slew (s : PIDState) (cv tv dt now : ℚ)
    (hbr : |(pidTraceDt s cv tv dt now).clampedOutput - s.lastOutput| / dt > s.maxOutRate) :
    (pidTraceDt s cv tv dt now).output =
      s.lastOutput +
        pycopysign (s.maxOutRate * dt) ((pidTraceDt s cv tv dt now).clampedOutput - s.lastOutput) := by
  rw [pidTraceDt_output_eq, if_pos hbr]

/-- The change of the output over one call never exceeds the slew budget
`max_out_rate * dt`. -/
lemma pidTraceDt_output_rate (s : PIDState) (cv tv dt now : ℚ)
    (hdt : 0 < dt) (hr0 : 0 ≤ s.maxOutRate) :
    |(pidTraceDt s cv tv dt now).output - s.lastOutput| ≤ s.maxOutRate * dt := by
  rw [pidTraceDt_output_eq]
  set d := (pidTraceDt s cv tv dt now).clampedOutput - s.lastOutput with hd
  have hrdt : 0 ≤ s.maxOutRate * dt := mul_nonneg hr0 hdt.le
  by_cases hbr : |d| / dt > s.maxOutRate
  · rw [if_pos hbr, add_sub_cancel_left]
    unfold pycopysign
    by_cases hneg : d < 0
    · rw [if_pos hneg, abs_neg, abs_abs, abs_of_nonneg hrdt]
    · rw [if_neg hneg, abs_abs, abs_of_nonneg hrdt]
  · rw [if_neg hbr]
    exact (div_le_iff₀ hdt).mp (not_lt.mp hbr)

/-- The clamped output lies within the configured output limits. -/
lemma pidTraceDt_clampedOutput_bounds (s : PIDState) (cv tv dt now : ℚ)
    (hmm : s.minOutput ≤ s.maxOutput) :
    s.minOutput ≤ (pidTraceDt s cv tv dt now).clampedOutput ∧
      (pidTraceDt s cv tv dt now).clampedOutput ≤ s.maxOutput := by
  rw [pidTraceDt_clampedOutput_eq]
  exact ⟨le_max_left _ _, max_le hmm (min_le_left _ _)⟩

/-- If the previous output lies within the output limits, so does the
returned output of the next call, slew branch included. -/
lemma pidTraceDt_output_bounds (s : PIDState) (cv tv dt now : ℚ)
    (hdt : 0 < dt) (hmm : s.minOutput ≤ s.maxOutput)
    (hrate : s.maxOutRate = (s.maxOutput - s.minOutput) * 1)
    (hlo : s.minOutput ≤ s.lastOutput) (hhi : s.lastOutput ≤ s.maxOutput) :
    s.minOutput ≤ (pidTraceDt s cv tv dt now).output ∧
      (pidTraceDt s cv tv dt now).output ≤ s.maxOutput := by
  obtain ⟨hco₁, hco₂⟩ := pidTraceDt_clampedOutput_bounds s cv tv dt now hmm
  have hr0 : 0 ≤ s.maxOutRate := by rw [hrate, mul_one]; linarith
  rw [pidTraceDt_output_eq]
  set d := (pidTraceDt s cv tv dt now).clampedOutput - s.lastOutput with hd
  have hco : (pidTraceDt s cv tv dt now).clampedOutput = s.lastOutput + d := by rw [hd]; ring
  rw [hco] at hco₁ hco₂
  have hrdt : 0 ≤ s.maxOutRate * dt := mul_nonneg hr0 hdt.le
  by_cases hbr : |d| / dt > s.maxOutRate
  · rw [if_pos hbr]
    have hlt : s.maxOutRate * dt < |d| := (lt_div_iff₀ hdt).mp hbr
    unfold pycopysign
    by_cases hneg : d < 0
    · rw [if_pos hneg, abs_of_nonneg hrdt]
      have habs : |d| = -d := abs_of_neg hneg
      constructor <;> linarith [hlt, habs]
    · rw [if_neg hneg, abs_of_nonneg hrdt]
      have habs : |d| = d := abs_of_nonneg (not_lt.mp hneg)
      constructor <;> linarith [hlt, habs]
  · rw [if_neg hbr, hco]
    exact ⟨hco₁, hco₂⟩

/-- When the slew branch fires from a previous output inside the limits, the
replacement value lies strictly between the previous output and the clamped
output. -/
lemma pidTraceDt_slew_strict (s : PIDState) (cv tv dt now : ℚ)
    (hdt : 0 < dt) (hmm : s.minOutput ≤ s.maxOutput)
    (hrate : s.maxOutRate = (s.maxOutput - s.minOutput) * 1)
    (hlo : s.minOutput ≤ s.lastOutput) (hhi : s.lastOutput ≤ s.maxOutput)
    (hbr : |(pidTraceDt s cv tv dt now).clampedOutput - s.lastOutput| / dt > s.maxOutRate) :
    (s.lastOutput < (pidTraceDt s cv tv dt now).output ∧
      (pidTraceDt s cv tv dt now).output < (pidTraceDt s cv tv dt now).clampedOutput) ∨
    ((pidTraceDt s cv tv dt now).clampedOutput < (pidTraceDt s cv tv dt now).output ∧
      (pidTraceDt s cv tv dt now).output < s.lastOutput) := by
  obtain ⟨hco₁, hco₂⟩ := pidTraceDt_clampedOutput_bounds s cv tv dt now hmm
  have hr0 : 0 ≤ s.maxOutRate := by rw [hrate, mul_one]; linarith
  have hlt : s.maxOutRate * dt < |(pidTraceDt s cv tv dt now).clampedOutput - s.lastOutput| :=
    (lt_div_iff₀ hdt).mp hbr
  set d := (pidTraceDt s cv tv dt now).clampedOutput - s.lastOutput with hd
  have hco : (pidTraceDt s cv tv dt now).clampedOutput = s.lastOutput + d := by rw [hd]; ring
  have hdne : d ≠ 0 := by
    intro h0
    rw [h0, abs_zero] at hlt
    exact absurd hlt (not_lt.mpr (mul_nonneg hr0 hdt.le))
  have hrpos : 0 < s.maxOutRate := by
    rcases eq_or_lt_of_le hr0 with heq | hpos
    · exfalso
      have hmm' : s.maxOutput = s.minOutput := by
        rw [mul_one] at hrate; linarith [hrate, heq]
      have hcomin : (pidTraceDt s cv tv dt now).clampedOutput = s.minOutput := by
        refine le_antisymm ?_ hco₁
        calc (pidTraceDt s cv tv dt now).clampedOutput ≤ s.maxOutput := hco₂
        _ = s.minOutput := hmm'
      have hlast : s.lastOutput = s.minOutput := by
        refine le_antisymm ?_ hlo
        calc s.lastOutput ≤ s.maxOutput := hhi
        _ = s.minOutput := hmm'
      exact hdne (by rw [hd, hcomin, hlast, sub_self])
    · exact hpos
  have hrdtpos : 0 < s.maxOutRate * dt := mul_pos hrpos hdt
  rw [pidTraceDt_output_slew s cv tv dt now hbr, ← hd]
  unfold pycopysign
  by_cases hneg : d < 0
  · right
    rw [if_pos hneg, abs_of_nonneg hrdtpos.le]
    have habs : |d| = -d := abs_of_neg hneg
    constructor <;> [rw [hco]; skip] <;> linarith [hlt, habs]
  · left
    rw [if_neg hneg, abs_of_nonneg hrdtpos.le]
    have habs : |d| = d := abs_of_nonneg (not_lt.mp hneg)
    constructor <;> [skip; rw [hco]] <;> linarith [hlt, habs]

/-- Bounds invariance over a whole run: if the configuration limits bracket
the initial `last_output`, every output of every call stays within them. -/
lemma runPID_bounds (mn mx : ℚ) (hmm : mn ≤ mx) :
    ∀ (inputs : List (ℚ × ℚ × ℚ)) (s : PIDState),
      s.minOutput = mn → s.maxOutput = mx → s.maxOutRate = (mx - mn) * 1 →
      mn ≤ s.lastOutput → s.lastOutput ≤ mx →
      ∀ y ∈ runPID s inputs, mn ≤ y ∧ y ≤ mx := by
  intro inputs
  induction inputs with
  | nil => intro s _ _ _ _ _ y hy; simp [runPID] at hy
  | cons p rest ih =>
    intro s h1 h2 h3 h4 h5 y hy
    obtain ⟨cv, tv, now⟩ := p
    have hstep : mn ≤ (pidStep s cv tv now).output ∧ (pidStep s cv tv now).output ≤ mx := by
      rw [pidStep_def]
      have := pidTraceDt_output_bounds s cv tv
        (if now - s.lastTime ≤ 0 then 1 / 1000000 else now - s.lastTime) now
        (effDt_pos s now) (by rw [h1, h2]; exact hmm)
        (by rw [h1, h2, h3]) (by rw [h1]; exact h4) (by rw [h2]; exact h5)
      rwa [h1, h2] at this
    simp only [runPID, List.mem_cons] at hy
    rcases hy with hy | hy
    · exact hy ▸ hstep
    · refine ih (pidStep s cv tv now).state' ?_ ?_ ?_ ?_ ?_ y hy
      · rw [pidStep_def, pidTraceDt_newMinOutput]; exact h1
      · rw [pidStep_def, pidTraceDt_newMaxOutput]; exact h2
      · rw [pidStep_def, pidTraceDt_newMaxOutRate]; exact h3
      · rw [pidStep_def, pidTraceDt_newLastOutput, ← pidStep_def]; exact hstep.1
      · rw [pidStep_def, pidTraceDt_newLastOutput, ← pidStep_def]; exact hstep.2

lemma pidTraceDt_integralAfterReset_eq (s : PIDState) (cv tv dt now : ℚ) :
    (pidTraceDt s cv tv dt now).integralAfterReset =
      if |s.lastTarget - tv| > s.integratorResetDelta then s.integral * (1 / 2)
      else s.integral := rfl

lemma pidTraceDt_integralAfterAccum_eq (s : PIDState) (cv tv dt now : ℚ) :
    (pidTraceDt s cv tv dt now).integralAfterAccum =
      if s.clamped = false then
        (pidTraceDt s cv tv dt now).integralAfterReset + (pidTraceDt s cv tv dt now).error * dt
      else (pidTraceDt s cv tv dt now).integralAfterReset := rfl

lemma pidTraceDt_newIntegral_eq (s : PIDState) (cv tv dt now : ℚ) :
    (pidTraceDt s cv tv dt now).state'.integral =
      if (pidTraceDt s cv tv dt now).clampedFlag then
        (pidTraceDt s cv tv dt now).integralAfterAccum -
          ((pidTraceDt s cv tv dt now).rawOutput -
            (pidTraceDt s cv tv dt now).clampedOutput) * s.kAw * dt
      else (pidTraceDt s cv tv dt now).integralAfterAccum := rfl

/-!
The claim theorems.
-/

/-- C1 (counterexample): a validly configured controller (min_output = 5 ≤
10 = max_output, tau = 0 ≥ 0) returns an output strictly below min_output on
its very first call: slew-rate limiting ramps away from the initial
last_output of 0, which lies outside [5, 10], so the returned 5/2 violates
the claimed bound. -/
theorem C1_cex_output_below_min :
    (mkPID 1 0 0 5 10 0 1 0).minOutput ≤ (mkPID 1 0 0 5 10 0 1 0).maxOutput ∧
    0 ≤ (mkPID 1 0 0 5 10 0 1 0).tau ∧
    (pidStep (mkPID 1 0 0 5 10 0 1 0) 0 100 (1 / 2)).output <
      (mkPID 1 0 0 5 10 0 1 0).minOutput := by
  refine ⟨by norm_num [mkPID], by norm_num [mkPID], ?_⟩
  norm_num [pidStep, pidTraceDt, mkPID, applyClamping, filterDerivative, pysign, pycopysign,
    abs_lt]

/-- C1 (amended): for every configuration with min_output ≤ max_output and
tau ≥ 0 whose output limits additionally bracket the initial last_output of
zero (min_output ≤ 0 ≤ max_output), every output of every compute call of
every input sequence lies within [min_output, max_output], regardless of the
magnitude of current_value or target_value. -/
theorem C1_amended_output_within_limits (kp ki kd mn mx tau delta t0 : ℚ)
    (hmm : mn ≤ mx) (htau : 0 ≤ tau) (hmn : mn ≤ 0) (hmx : 0 ≤ mx)
    (inputs : List (ℚ × ℚ × ℚ)) :
    ∀ y ∈ runPID (mkPID kp ki kd mn mx tau delta t0) inputs, mn ≤ y ∧ y ≤ mx := by
  refine runPID_bounds mn mx hmm inputs _ rfl rfl rfl ?_ ?_
  · show mn ≤ (0 : ℚ); exact hmn
  · show (0 : ℚ) ≤ mx; exact hmx

/-- Witness for C1 (amended) at a concrete controller and input. -/
theorem C1_amended_output_within_limits_witness :
    (-10 : ℚ) ≤ (pidStep (mkPID 1 1 0 (-10) 10 0 1 0) 0 100 1).output ∧
      (pidStep (mkPID 1 1 0 (-10) 10 0 1 0) 0 100 1).output ≤ 10 :=
  C1_amended_output_within_limits 1 1 0 (-10) 10 0 1 0 (by norm_num) (le_refl 0)
    (by norm_num) (by norm_num) [(0, 100, 1)] _ (by simp [runPID])

/-- C2 (counterexample): with tau = 1 and two unit time steps, the second
filtered derivative computed by the code is 1, while the claimed recurrence
alpha * (previous FILTERED derivative) + (1 - alpha) * (raw derivative)
yields 1/2; the state committed after the first step is the first RAW
derivative, not the first filtered one. -/
theorem C2_cex_filter_state_raw :
    (pidStep (pidStep (mkPID 0 0 1 (-100) 100 1 1 0) (-2) 0 1).state' (-2) 0 2).filteredDerivative
        = 1 ∧
    specFilter 1 (pidStep (mkPID 0 0 1 (-100) 100 1 1 0) (-2) 0 1).filteredDerivative
        (pidStep (pidStep (mkPID 0 0 1 (-100) 100 1 1 0) (-2) 0 1).state' (-2) 0 2).rawDerivative
        (pidStep (pidStep (mkPID 0 0 1 (-100) 100 1 1 0) (-2) 0 1).state' (-2) 0 2).dt = 1 / 2 ∧
    (pidStep (pidStep (mkPID 0 0 1 (-100) 100 1 1 0) (-2) 0 1).state' (-2) 0 2).filteredDerivative
        ≠
      specFilter 1 (pidStep (mkPID 0 0 1 (-100) 100 1 1 0) (-2) 0 1).filteredDerivative
        (pidStep (pidStep (mkPID 0 0 1 (-100) 100 1 1 0) (-2) 0 1).state' (-2) 0 2).rawDerivative
        (pidStep (pidStep (mkPID 0 0 1 (-100) 100 1 1 0) (-2) 0 1).state' (-2) 0 2).dt ∧
    (pidStep (mkPID 0 0 1 (-100) 100 1 1 0) (-2) 0 1).state'.lastDerivative =
      (pidStep (mkPID 0 0 1 (-100) 100 1 1 0) (-2) 0 1).rawDerivative := by
  refine ⟨?_, ?_, ?_, rfl⟩ <;>
    norm_num [pidStep, pidTraceDt, mkPID, applyClamping, filterDerivative, specFilter,
      pysign, pycopysign]

/-- C2 (amended): at every step the filtered derivative equals
alpha * (raw derivative of the previous step) + (1 - alpha) * (raw
derivative of the current step), with alpha = tau / (tau + dt): the filter
state carried across calls is the previous RAW derivative, which the state
commit stores in _last_derivative. -/
theorem C2_amended_filter_uses_raw_previous (s : PIDState) (cv tv dt now : ℚ) :
    (pidTraceDt s cv tv dt now).filteredDerivative =
      (s.tau / (s.tau + dt)) * s.lastDerivative +
        (1 - s.tau / (s.tau + dt)) * (pidTraceDt s cv tv dt now).rawDerivative ∧
    (pidTraceDt s cv tv dt now).state'.lastDerivative =
      (pidTraceDt s cv tv dt now).rawDerivative :=
  ⟨rfl, rfl⟩

/-- C3 (counterexample): with kp = 1, bounds [-100, 10] and error 10, the raw
PID output is exactly 10 = max_output, so clamping does not alter it, yet
the internal clamped flag is set to true, contradicting the claim that the
flag requires the clamped output to DIFFER from the raw output. -/
theorem C3_cex_flag_true_without_alteration :
    (pidStep (mkPID 1 0 0 (-100) 10 0 1 0) 0 10 1).rawOutput =
      (pidStep (mkPID 1 0 0 (-100) 10 0 1 0) 0 10 1).clampedOutput ∧
    (pidStep (mkPID 1 0 0 (-100) 10 0 1 0) 0 10 1).clampedFlag = true := by
  constructor <;>
    norm_num [pidStep, pidTraceDt, mkPID, applyClamping, filterDerivative, pysign, pycopysign]

/-- C3 (amended): in every compute call the internal clamped flag is set to
true if and only if the sign of the clamped output equals the sign of the
current error AND the clamped output equals one of the two output limits;
in particular the flag is also set when the raw output already equals a
limit without being altered. -/
theorem C3_amended_flag_iff (s : PIDState) (cv tv dt now : ℚ) :
    (pidTraceDt s cv tv dt now).clampedFlag = true ↔
      (pysign (pidTraceDt s cv tv dt now).clampedOutput =
          pysign (pidTraceDt s cv tv dt now).error ∧
        ((pidTraceDt s cv tv dt now).clampedOutput = s.minOutput ∨
          (pidTraceDt s cv tv dt now).clampedOutput = s.maxOutput)) := by
  rw [pidTraceDt_clampedFlag_eq]
  exact applyClamping_flag_iff s _ _

/-- C4 (counterexample): constructing with min_output = 1 > 0 = max_output
and tau = -1 < 0 raises nothing: the call returns the constructed
controller, refuting the claim that such configurations fail with
InvalidConfiguration. -/
theorem C4_cex_invalid_config_accepted :
    (mkPID 1 1 1 1 0 (-1) 1 0).maxOutput < (mkPID 1 1 1 1 0 (-1) 1 0).minOutput ∧
    (mkPID 1 1 1 1 0 (-1) 1 0).tau < 0 ∧
    mkPIDChecked 1 1 1 1 0 (-1) 1 0 = Except.ok (mkPID 1 1 1 1 0 (-1) 1 0) :=
  ⟨by norm_num [mkPID], by norm_num [mkPID], rfl⟩

/-- C4 (amended): construction never fails: __init__ performs no validation,
so for every parameter choice (including min_output > max_output or tau < 0)
the call returns a controller storing the given parameters, with zeroed
mutable state and clamped flag false. -/
theorem C4_amended_construction_total (kp ki kd mn mx tau delta t0 : ℚ) :
    mkPIDChecked kp ki kd mn mx tau delta t0 =
      Except.ok (mkPID kp ki kd mn mx tau delta t0) ∧
    (mkPID kp ki kd mn mx tau delta t0).minOutput = mn ∧
    (mkPID kp ki kd mn mx tau delta t0).maxOutput = mx ∧
    (mkPID kp ki kd mn mx tau delta t0).tau = tau ∧
    (mkPID kp ki kd mn mx tau delta t0).integral = 0 ∧
    (mkPID kp ki kd mn mx tau delta t0).lastOutput = 0 ∧
    (mkPID kp ki kd mn mx tau delta t0).clamped = false :=
  ⟨rfl, rfl, rfl, rfl, rfl, rfl, rfl⟩

/-- C5: error * dt is added to the integral accumulator exactly when the
clamped flag recorded by the previous step is false, and when the current
call sets the clamped flag the stored integral is additionally reduced by
(raw_output - clamped_output) * k_aw * dt. -/
theorem C5_integral_gating (s : PIDState) (cv tv dt now : ℚ) :
    (s.clamped = false →
      (pidTraceDt s cv tv dt now).integralAfterAccum =
        (pidTraceDt s cv tv dt now).integralAfterReset +
          (pidTraceDt s cv tv dt now).error * dt) ∧
    (s.clamped = true →
      (pidTraceDt s cv tv dt now).integralAfterAccum =
        (pidTraceDt s cv tv dt now).integralAfterReset) ∧
    ((pidTraceDt s cv tv dt now).clampedFlag = true →
      (pidTraceDt s cv tv dt now).state'.integral =
        (pidTraceDt s cv tv dt now).integralAfterAccum -
          ((pidTraceDt s cv tv dt now).rawOutput -
            (pidTraceDt s cv tv dt now).clampedOutput) * s.kAw * dt) ∧
    ((pidTraceDt s cv tv dt now).clampedFlag = false →
      (pidTraceDt s cv tv dt now).state'.integral =
        (pidTraceDt s cv tv dt now).integralAfterAccum) := by
  refine ⟨fun h => ?_, fun h => ?_, fun h => ?_, fun h => ?_⟩
  · rw [pidTraceDt_integralAfterAccum_eq, if_pos h]
  · rw [pidTraceDt_integralAfterAccum_eq, if_neg (by simp [h])]
  · rw [pidTraceDt_newIntegral_eq, if_pos h]
  · rw [pidTraceDt_newIntegral_eq, if_neg (by simp [h])]

/-- Witness for C5 at a concrete unclamped controller. -/
theorem C5_integral_gating_witness :
    (pidTraceDt (mkPID 1 1 0 (-100) 100 0 1 0) 0 1 1 1).integralAfterAccum =
      (pidTraceDt (mkPID 1 1 0 (-100) 100 0 1 0) 0 1 1 1).integralAfterReset +
        (pidTraceDt (mkPID 1 1 0 (-100) 100 0 1 0) 0 1 1 1).error * 1 :=
  (C5_integral_gating (mkPID 1 1 0 (-100) 100 0 1 0) 0 1 1 1).1 rfl

/-- C6: when the stored last target differs from the new target by more than
integrator_reset_delta, the accumulated integral is multiplied by 0.5 before
any further accumulation of this call; otherwise it is left unattenuated,
and accumulation always starts from the possibly attenuated value. -/
theorem C6_integral_reset_on_setpoint_jump (s : PIDState) (cv tv dt now : ℚ) :
    (|s.lastTarget - tv| > s.integratorResetDelta →
      (pidTraceDt s cv tv dt now).integralAfterReset = s.integral * (1 / 2)) ∧
    (¬|s.lastTarget - tv| > s.integratorResetDelta →
      (pidTraceDt s cv tv dt now).integralAfterReset = s.integral) ∧
    (pidTraceDt s cv tv dt now).integralAfterAccum =
      (if s.clamped = false then
        (pidTraceDt s cv tv dt now).integralAfterReset +
          (pidTraceDt s cv tv dt now).error * dt
      else (pidTraceDt s cv tv dt now).integralAfterReset) := by
  refine ⟨fun h => ?_, fun h => ?_, rfl⟩
  · rw [pidTraceDt_integralAfterReset_eq, if_pos h]
  · rw [pidTraceDt_integralAfterReset_eq, if_neg h]

/-- Witness for C6: after one step sets integral 1 and last target 1,
jumping the target to 10 halves the stored integral. -/
theorem C6_integral_reset_on_setpoint_jump_witness :
    (pidTraceDt (pidStep (mkPID 1 1 0 (-100) 100 0 1 0) 0 1 1).state' 0 10 1 2).integralAfterReset
      = (pidStep (mkPID 1 1 0 (-100) 100 0 1 0) 0 1 1).state'.integral * (1 / 2) :=
  (C6_integral_reset_on_setpoint_jump
      (pidStep (mkPID 1 1 0 (-100) 100 0 1 0) 0 1 1).state' 0 10 1 2).1
    (by norm_num [pidStep, pidTraceDt, mkPID, applyClamping, filterDerivative, pysign,
      pycopysign])

/-- C7: with min_output ≤ max_output and max_out_rate = (max_output -
min_output) * 1.0, the change of the returned output relative to the
previous output never exceeds max_out_rate times the effective time step,
and whenever the unrestricted change rate would exceed max_out_rate the
returned output is last_output + copysign(max_out_rate * dt, delta) applied
to the saturation-clamped output as the final transformation. -/
theorem C7_slew_rate_limit (s : PIDState) (cv tv now : ℚ)
    (hmm : s.minOutput ≤ s.maxOutput)
    (hrate : s.maxOutRate = (s.maxOutput - s.minOutput) * 1) :
    |(pidStep s cv tv now).output - s.lastOutput| ≤
        s.maxOutRate * (pidStep s cv tv now).dt ∧
    (|(pidStep s cv tv now).clampedOutput - s.lastOutput| / (pidStep s cv tv now).dt >
          s.maxOutRate →
      (pidStep s cv tv now).output =
        s.lastOutput + pycopysign (s.maxOutRate * (pidStep s cv tv now).dt)
          ((pidStep s cv tv now).clampedOutput - s.lastOutput)) := by
  have hr0 : 0 ≤ s.maxOutRate := by rw [hrate, mul_one]; linarith
  rw [pidStep_def, pidTraceDt_dt_eq]
  exact ⟨pidTraceDt_output_rate s cv tv _ now (effDt_pos s now) hr0,
    fun hbr => pidTraceDt_output_slew s cv tv _ now hbr⟩

/-- Witness for C7 at a concrete saturating call. -/
theorem C7_slew_rate_limit_witness :
    |(pidStep (mkPID 1 0 0 (-10) 10 0 1 0) 0 100 1).output -
        (mkPID 1 0 0 (-10) 10 0 1 0).lastOutput| ≤
      (mkPID 1 0 0 (-10) 10 0 1 0).maxOutRate *
        (pidStep (mkPID 1 0 0 (-10) 10 0 1 0) 0 100 1).dt :=
  (C7_slew_rate_limit (mkPID 1 0 0 (-10) 10 0 1 0) 0 100 1 (by norm_num [mkPID]) rfl).1

/-- C8: when the elapsed time now - last_time is ≤ 0, the call raises
nothing and behaves exactly as the same computation performed with the
fixed epsilon dt = 1e-6; over ℚ the result is a finite rational, never a
NaN or infinity. -/
theorem C8_degenerate_dt_epsilon (s : PIDState) (cv tv now : ℚ)
    (h : now - s.lastTime ≤ 0) :
    pidStep s cv tv now = pidTraceDt s cv tv (1 / 1000000) now := by
  rw [pidStep_def, if_pos h]

/-- Witness for C8 with a clock that moved backwards. -/
theorem C8_degenerate_dt_epsilon_witness :
    pidStep (mkPID 1 1 1 (-10) 10 0 1 5) 0 1 3 =
      pidTraceDt (mkPID 1 1 1 (-10) 10 0 1 5) 0 1 (1 / 1000000) 3 :=
  C8_degenerate_dt_epsilon (mkPID 1 1 1 (-10) 10 0 1 5) 0 1 3 (by norm_num [mkPID])

/-- C9 (counterexample): two compute calls on identical controller states
with identical explicit inputs (current_value = 0, target_value = 1) but
different wall-clock call times return different outputs (2 versus 3),
refuting the claim that compute depends only on its explicit inputs and the
internal state and not on wall-clock time. -/
theorem C9_cex_wall_clock_dependence :
    (pidStep (mkPID 1 1 0 (-100) 100 (1 / 50) 1 0) 0 1 1).output ≠
      (pidStep (mkPID 1 1 0 (-100) 100 (1 / 50) 1 0) 0 1 2).output := by
  norm_num [pidStep, pidTraceDt, mkPID, applyClamping, filterDerivative, pysign, pycopysign]

/-- C9 (amended): two controller instances constructed with identical
parameters AND an identical construction-time clock reading, fed identical
sequences of (current_value, target_value, wall-clock call time) triples,
produce identical output sequences: the computation is a deterministic
function of the constructed state and those inputs.  The original claim
fails because compute also reads the wall clock: dt is not an explicit
input but is derived from time.time(). -/
theorem C9_amended_determinism (kp ki kd mn mx tau delta t0 : ℚ)
    (inputs : List (ℚ × ℚ × ℚ)) (c1 c2 : PIDState)
    (h1 : c1 = mkPID kp ki kd mn mx tau delta t0)
    (h2 : c2 = mkPID kp ki kd mn mx tau delta t0) :
    runPID c1 inputs = runPID c2 inputs := by
  rw [h1, h2]

/-- Witness for C9 (amended) at a concrete pair of identically constructed
controllers. -/
theorem C9_amended_determinism_witness :
    runPID (mkPID 1 1 0 (-100) 100 (1 / 50) 1 0) [(0, 1, 1)] =
      runPID (mkPID 1 1 0 (-100) 100 (1 / 50) 1 0) [(0, 1, 1)] :=
  C9_amended_determinism 1 1 0 (-100) 100 (1 / 50) 1 0 [(0, 1, 1)] _ _ rfl rfl

/-- C10: for every controller whose output limits bracket zero, the initial
last_output is 0; whenever the slew branch fires from a previous output
inside the limits the replacement value lies strictly between last_output
and the saturation-clamped output; and consequently every output of every
compute call of every input sequence lies within [min_output, max_output]. -/
theorem C10_output_bounded_zero_in_range (kp ki kd mn mx tau delta t0 : ℚ)
    (hmn : mn ≤ 0) (hmx : 0 ≤ mx) (inputs : List (ℚ × ℚ × ℚ)) :
    (mkPID kp ki kd mn mx tau delta t0).lastOutput = 0 ∧
    (∀ (s : PIDState) (cv tv now : ℚ),
      s.minOutput = mn → s.maxOutput = mx → s.maxOutRate = (mx - mn) * 1 →
      mn ≤ s.lastOutput → s.lastOutput ≤ mx →
      |(pidStep s cv tv now).clampedOutput - s.lastOutput| / (pidStep s cv tv now).dt >
          s.maxOutRate →
      ((s.lastOutput < (pidStep s cv tv now).output ∧
          (pidStep s cv tv now).output < (pidStep s cv tv now).clampedOutput) ∨
        ((pidStep s cv tv now).clampedOutput < (pidStep s cv tv now).output ∧
          (pidStep s cv tv now).output < s.lastOutput))) ∧
    ∀ y ∈ runPID (mkPID kp ki kd mn mx tau delta t0) inputs, mn ≤ y ∧ y ≤ mx := by
  have hmm : mn ≤ mx := le_trans hmn hmx
  refine ⟨rfl, ?_, ?_⟩
  · intro s cv tv now h1 h2 h3 h4 h5 hbr
    rw [pidStep_def] at hbr ⊢
    rw [pidTraceDt_dt_eq] at hbr
    exact pidTraceDt_slew_strict s cv tv _ now (effDt_pos s now)
      (by rw [h1, h2]; exact hmm) (by rw [h1, h2, h3]) (by rw [h1]; exact h4)
      (by rw [h2]; exact h5) hbr
  · refine runPID_bounds mn mx hmm inputs _ rfl rfl rfl ?_ ?_
    · show mn ≤ (0 : ℚ); exact hmn
    · show (0 : ℚ) ≤ mx; exact hmx

/-- Witness for C10 at a concrete controller and input. -/
theorem C10_output_bounded_zero_in_range_witness :
    (-10 : ℚ) ≤ (pidStep (mkPID 1 0 0 (-10) 10 0 1 0) 0 100 (1 / 2)).output ∧
      (pidStep (mkPID 1 0 0 (-10) 10 0 1 0) 0 100 (1 / 2)).output ≤ 10 :=
  (C10_output_bounded_zero_in_range 1 0 0 (-10) 10 0 1 0 (by norm_num) (by norm_num)
    [(0, 100, 1 / 2)]).2.2 _ (by simp [runPID])
